import Mathlib

/-!
# go-operator-customhpa: reconciliation engine and metric client

A shallow embedding of

* `pkg/controllers/customhpa_controller.go` (`Reconcile`, `currentReplicas`,
  `setCondition`, `requeueAfter`), and
* `pkg/prom/prometheus_client.go` (`QueryInstant`, `parseFloat`).

Conventions of the embedding.

* Go `int32` values are `Int`s; the two arithmetic steps on replica counts
  (`desired + 1`, `desired - 1`) are wrapped explicitly by `wrap32`, and the
  `time.Duration` product of `requeueAfter` by `wrap64`.
* A Go `float64` is a `Float64`: NaN, the two infinities, or a finite rational.
  The controller only ever compares the value with `0`.
* The control plane, the HTTP backend and the clock are external; their answers
  are the fields of a `World`, and everything a pass asks of them (and every
  in-memory `setCondition` step) is recorded, in program order, in a trace of
  `Effect`s. An update is taken to leave the in-memory object as it was sent.
* A Go `map[string]string` is an association list (`none` is the nil map);
  a decoded JSON document (`any`) is a `JSON` tree.
* A run-time panic is an outcome of its own (`QResult.panic`, `Outcome.panicked`).
-/

set_option autoImplicit false

namespace Operator

/-! ## Machine integers and floats -/

/-- Two's-complement wrap-around of an integer into the `int32` range. -/
def wrap32 (x : Int) : Int := (x + 2147483648) % 4294967296 - 2147483648

/-- The value fits a Go `int32`. -/
def isInt32 (x : Int) : Prop := -2147483648 ≤ x ∧ x ≤ 2147483647

instance (x : Int) : Decidable (isInt32 x) := by unfold isInt32; infer_instance

/-- A Go `float64`, as far as ordering against zero can tell values apart. -/
inductive Float64 where
  | nan
  | negInf
  | posInf
  | finite (q : ℚ)
  deriving DecidableEq

namespace Float64

/-- The Go comparison `value > 0` (false for NaN). -/
def gtZero : Float64 → Bool
  | nan => false
  | negInf => false
  | posInf => true
  | finite q => decide (0 < q)

/-- The Go comparison `value <= 0` (false for NaN). -/
def leZero : Float64 → Bool
  | nan => false
  | negInf => true
  | posInf => false
  | finite q => decide (q ≤ 0)

end Float64

/-! ## Scaling decision (`customhpa_controller.go`, lines 120-134) -/

/-- The local variable `desired` of `Reconcile` after the `if value > 0 … else …`
block, as a function of `currentReplicas(&dep)`, the metric value and the
policy bounds. -/
def Reconcile.desired (current : Int) (value : Float64) (minReplicas maxReplicas : Int) : Int :=
  if value.gtZero then
    let desired := wrap32 (current + 1)
    if desired > maxReplicas then maxReplicas else desired
  else
    -- value <= 0: scale down one
    let desired := if current > minReplicas then wrap32 (current - 1) else current
    if desired < minReplicas then minReplicas else desired

/-! ## Data model (`pkg/api/v1alpha1/customhpa_types.go` and the Kubernetes types used) -/

/-- A `metav1.Time`: a reading of the clock. -/
abbrev Time := Nat

/-- The type `metav1.ConditionStatus`. -/
inductive ConditionStatus where
  | ConditionTrue
  | ConditionFalse
  | ConditionUnknown
  deriving DecidableEq

/-- The type `metav1.Condition` (its field `Type` is `CondType` here). -/
structure Condition where
  CondType : String
  Status : ConditionStatus
  Reason : String
  Message : String
  LastTransitionTime : Time
  ObservedGeneration : Int
  deriving DecidableEq

/-- The type `ObjectRef`. -/
structure ObjectRef where
  Name : String
  Namespace : String
  deriving DecidableEq

/-- The type `CustomHPASpec`. `PrometheusURL` and `PromQL` are read by `Reconcile`
although the type declaration under `pkg/api/v1alpha1` does not list them. -/
structure CustomHPASpec where
  MinReplicas : Int
  MaxReplicas : Int
  IntervalSeconds : Option Int
  TargetRef : ObjectRef
  PrometheusURL : String
  PromQL : String
  deriving DecidableEq

/-- The type `CustomHPAStatus`. `LastQueryValue` is written by `Reconcile` although
the type declaration does not list it. -/
structure CustomHPAStatus where
  CurrentReplicas : Int
  LastQueryValue : Float64
  LastScaleTime : Option Time
  Conditions : List Condition
  deriving DecidableEq

/-- The type `CustomHPA` with the fields of its `ObjectMeta` that `Reconcile` uses. -/
structure CustomHPA where
  Name : String
  Namespace : String
  Generation : Int
  DeletionTimestamp : Option Time
  Finalizers : List String
  Spec : CustomHPASpec
  Status : CustomHPAStatus
  deriving DecidableEq

/-- A Go `map[string]string`; `none` is the nil map. -/
abbrev StringMap := Option (List (String × String))

/-- The Go expression `m[key]`: the zero value `""` when the key is absent or the map is nil. -/
def StringMap.get (m : StringMap) (key : String) : String :=
  match m with
  | none => ""
  | some kvs => (kvs.lookup key).getD ""

/-- The Go statement `delete(m, key)`. -/
def StringMap.delete (m : StringMap) (key : String) : StringMap :=
  match m with
  | none => none
  | some kvs => some (kvs.filter (fun kv => kv.1 ≠ key))

/-- The Go statement `m[key] = value` on a non-nil map. -/
def StringMap.set (m : StringMap) (key value : String) : StringMap :=
  some ((key, value) :: (m.getD []).filter (fun kv => kv.1 ≠ key))

/-- The fields of an `appsv1.Deployment` that `Reconcile` uses
(`Replicas` is `Spec.Replicas`, a `*int32`). -/
structure Deployment where
  Name : String
  Namespace : String
  Annotations : StringMap
  Replicas : Option Int
  deriving DecidableEq

/-- The type `types.NamespacedName`. -/
structure NamespacedName where
  Namespace : String
  Name : String
  deriving DecidableEq

/-- An error returned by the control-plane client. -/
inductive ApiError where
  | notFound (msg : String)
  | other (msg : String)
  deriving DecidableEq

/-- The method `err.Error()`. -/
def ApiError.Error : ApiError → String
  | notFound msg => msg
  | other msg => msg

/-- The function `client.IgnoreNotFound`. -/
def IgnoreNotFound : ApiError → Option ApiError
  | .notFound _ => none
  | .other msg => some (.other msg)

/-- The type `reconcile.Result`; `RequeueAfter` is a `time.Duration`, in nanoseconds. -/
structure Result where
  Requeue : Bool := false
  RequeueAfter : Int := 0
  deriving DecidableEq

def finalizerName : String := "customhpa.pisanix.dev/finalizer"

def managedAnno : String := "customhpa.pisanix.dev/managed"

/-- The function `controllerutil.ContainsFinalizer`. -/
def ContainsFinalizer (chpa : CustomHPA) (finalizer : String) : Bool :=
  chpa.Finalizers.contains finalizer

/-- The function `controllerutil.AddFinalizer`: appends unless already present. -/
def AddFinalizer (chpa : CustomHPA) (finalizer : String) : CustomHPA :=
  if chpa.Finalizers.contains finalizer then chpa
  else { chpa with Finalizers := chpa.Finalizers ++ [finalizer] }

/-- The function `controllerutil.RemoveFinalizer`: drops every occurrence. -/
def RemoveFinalizer (chpa : CustomHPA) (finalizer : String) : CustomHPA :=
  { chpa with Finalizers := chpa.Finalizers.filter (fun f => f ≠ finalizer) }

/-! ## Metric client (`pkg/prom/prometheus_client.go`) -/

/-- A value decoded by `encoding/json` into a Go `any`. -/
inductive JSON where
  | null
  | bool (b : Bool)
  | num (f : Float64)
  | str (s : String)
  | arr (elems : List JSON)
  | obj (fields : List (String × JSON))

/-- The type `promData`. -/
structure promData where
  ResultType : String
  Result : List JSON

/-- The type `promResp`. -/
structure promResp where
  Status : String
  Data : promData
  Error : String

/-- What the network gives `QueryInstant`: either building or sending the request
failed (`url.Parse`, `http.NewRequestWithContext`, `httpClient.Do`), or a response
arrived with a status code and a body that `json.Decode` accepted or not. -/
inductive HttpReply where
  | failed (msg : String)
  | response (StatusCode : Int) (body : Except String promResp)

/-- How a call of `QueryInstant` ends: `(value, nil)`, `(0, err)`, or a run-time panic. -/
inductive QResult where
  | ok (value : Float64)
  | error (msg : String)
  | panic
  deriving DecidableEq

/-- What the verb `%T` of package `fmt` prints for a decoded value: its dynamic type. -/
def JSON.typeName : JSON → String
  | .null => "<nil>"
  | .bool _ => "bool"
  | .num _ => "float64"
  | .str _ => "string"
  | .arr _ => "[]interface \x7b\x7d"
  | .obj _ => "map[string]interface \x7b\x7d"

/-- The function `parseFloat`; `ParseFloat` is `strconv.ParseFloat(·, 64)`. -/
def parseFloat (ParseFloat : String → Except String Float64) (v : JSON) : QResult :=
  match v with
  | .str t =>
    match ParseFloat t with
    | .ok f => .ok f
    | .error msg => .error msg
  | .num t => .ok t
  | _ => .error ("unexpected value type " ++ v.typeName)

/-- Lines 40-55 of `QueryInstant`: the `switch pr.Data.ResultType`. The type assertion
`pr.Data.Result[0].(map[string]any)` has no `ok` result, so it panics on anything that
is not a JSON object. -/
def QueryInstant.extract (ParseFloat : String → Except String Float64) (pr : promResp) : QResult :=
  if pr.Data.ResultType = "scalar" then
    match pr.Data.Result with
    | _ :: v :: _ => parseFloat ParseFloat v
    | _ => .ok (.finite 0)
  else if pr.Data.ResultType = "vector" then
    match pr.Data.Result with
    | [] => .ok (.finite 0)
    | first :: _ =>
      match first with
      | .obj m =>
        match m.lookup "value" with
        | some (.arr (_ :: v :: _)) => parseFloat ParseFloat v
        | _ => .ok (.finite 0)
      | _ => .panic
  else .ok (.finite 0)

/-- The function `QueryInstant`. -/
def QueryInstant (ParseFloat : String → Except String Float64)
    (httpGet : String → String → HttpReply) (baseURL query : String) : QResult :=
  if baseURL = "" then .error "prometheusURL is required"
  else
    match httpGet baseURL query with
    | .failed msg => .error msg
    | .response StatusCode body =>
      if StatusCode < 200 ∨ StatusCode ≥ 300 then
        .error ("prometheus http status " ++ toString StatusCode)
      else
        match body with
        | .error msg => .error msg
        | .ok pr =>
          if pr.Status ≠ "success" then .error ("prometheus error: " ++ pr.Error)
          else QueryInstant.extract ParseFloat pr

/-! ## Controller (`pkg/controllers/customhpa_controller.go`) -/

/-- The answers of the external collaborators during one pass: the control-plane
client (`r.Get`, `r.Update`, `r.Status().Update`), the HTTP backend,
`strconv.ParseFloat`, and the clock (`metav1.Now`). An update answers `none` for
success. -/
structure World where
  getCustomHPA : NamespacedName → Except ApiError CustomHPA
  getDeployment : NamespacedName → Except ApiError Deployment
  updateDeployment : Deployment → Option ApiError
  updateCustomHPA : CustomHPA → Option ApiError
  statusUpdate : CustomHPA → Option ApiError
  httpGet : String → String → HttpReply
  ParseFloat : String → Except String Float64
  now : Time

/-- One step of a pass, in program order: a call to a collaborator, a recorded
event (type and reason), or a `setCondition` on the in-memory policy. -/
inductive Effect where
  | getCustomHPA (key : NamespacedName)
  | getDeployment (key : NamespacedName)
  | updateDeployment (dep : Deployment)
  | updateCustomHPA (chpa : CustomHPA)
  | statusUpdate (chpa : CustomHPA)
  | queryInstant (baseURL query : String)
  | setCondition (status : ConditionStatus) (reason : String)
  | event (eventtype reason : String)
  deriving DecidableEq

/-- What a pass of `Reconcile` leaves behind: the returned `(ctrl.Result, error)`,
whether it panicked instead of returning, the steps it took, and the in-memory copy
of the policy when it ended. -/
structure Outcome where
  result : Result
  err : Option ApiError
  panicked : Bool
  trace : List Effect
  chpa : Option CustomHPA
  deriving DecidableEq

/-- The function `currentReplicas`. -/
def currentReplicas (dep : Deployment) : Int :=
  match dep.Replicas with
  | none => 1
  | some n => n

/-- The loop of `setCondition`: overwrite the first entry whose type is that of `cond`
and stop; the second component is the flag `found`. -/
def setCondition.loop (cond : Condition) : List Condition → List Condition × Bool
  | [] => ([], false)
  | c :: cs =>
    if c.CondType = cond.CondType then (cond :: cs, true)
    else ((c :: (setCondition.loop cond cs).1), (setCondition.loop cond cs).2)

/-- The method `setCondition`; `now` is what `metav1.Now()` returns in the call. -/
def setCondition (chpa : CustomHPA) (now : Time) (status : ConditionStatus)
    (reason msg : String) : CustomHPA :=
  let cond : Condition :=
    { CondType := "Ready"
      Status := status
      Reason := reason
      Message := msg
      LastTransitionTime := now
      ObservedGeneration := chpa.Generation }
  let r := setCondition.loop cond chpa.Status.Conditions
  if r.2 then { chpa with Status := { chpa.Status with Conditions := r.1 } }
  else { chpa with Status := { chpa.Status with Conditions := r.1 ++ [cond] } }

/-- Two's-complement wrap-around into the `int64` range of a `time.Duration`. -/
def wrap64 (x : Int) : Int :=
  (x + 9223372036854775808) % 18446744073709551616 - 9223372036854775808

/-- The method `requeueAfter`; `time.Second` is `1000000000` nanoseconds. -/
def requeueAfter (chpa : CustomHPA) : Result :=
  let interval : Int :=
    match chpa.Spec.IntervalSeconds with
    | some s => if s > 0 then s else 30
    | none => 30
  { Requeue := false, RequeueAfter := wrap64 (interval * 1000000000) }

/-- The target namespace defaults to the policy's own (lines 48-52), and the key
`types.NamespacedName{Name: chpa.Spec.TargetRef.Name, Namespace: targetNS}`. -/
def Reconcile.targetKey (chpa : CustomHPA) : NamespacedName :=
  { Namespace :=
      if chpa.Spec.TargetRef.Namespace = "" then chpa.Namespace
      else chpa.Spec.TargetRef.Namespace
    Name := chpa.Spec.TargetRef.Name }

/-- Lines 67-72 of `Reconcile`: remove the finalizer and persist the policy. -/
def Reconcile.dropFinalizer (w : World) (chpa : CustomHPA) (tr : List Effect) : Outcome :=
  let chpa1 := RemoveFinalizer chpa finalizerName
  { result := {}
    err := w.updateCustomHPA chpa1
    panicked := false
    trace := tr ++ [.updateCustomHPA chpa1]
    chpa := some chpa1 }

/-- Lines 55-73 of `Reconcile`: the policy has a deletion timestamp. -/
def Reconcile.terminating (w : World) (chpa : CustomHPA) (tr : List Effect) : Outcome :=
  if ContainsFinalizer chpa finalizerName then
    -- cleanup: remove annotation from target Deployment if exists
    let key := Reconcile.targetKey chpa
    let tr1 := tr ++ [.getDeployment key]
    match w.getDeployment key with
    | .ok dep =>
      if dep.Annotations.isSome ∧ dep.Annotations.get managedAnno = chpa.Name then
        let dep1 := { dep with Annotations := dep.Annotations.delete managedAnno }
        match w.updateDeployment dep1 with
        | some err =>
          { result := {}, err := some err, panicked := false,
            trace := tr1 ++ [.updateDeployment dep1], chpa := some chpa }
        | none => Reconcile.dropFinalizer w chpa (tr1 ++ [.updateDeployment dep1])
      else Reconcile.dropFinalizer w chpa tr1
    | .error _ => Reconcile.dropFinalizer w chpa tr1
  else { result := {}, err := none, panicked := false, trace := tr, chpa := some chpa }

/-- Lines 149-157 of `Reconcile`: write the status fields, set Ready=True and send
the status update. -/
def Reconcile.commit (w : World) (chpa : CustomHPA) (desired : Int) (value : Float64)
    (tr : List Effect) : Outcome :=
  let chpa1 :=
    { chpa with Status := { chpa.Status with CurrentReplicas := desired, LastQueryValue := value } }
  let chpa2 := setCondition chpa1 w.now .ConditionTrue "Reconciled" "Reconciliation successful"
  { result := requeueAfter chpa2
    err := w.statusUpdate chpa2
    panicked := false
    trace := tr ++ [.setCondition .ConditionTrue "Reconciled", .statusUpdate chpa2]
    chpa := some chpa2 }

/-- Lines 120-147 of `Reconcile`: compute `desired` and apply it if it differs from
the current count. -/
def Reconcile.scale (w : World) (chpa : CustomHPA) (dep : Deployment) (value : Float64)
    (tr : List Effect) : Outcome :=
  let desired :=
    Reconcile.desired (currentReplicas dep) value chpa.Spec.MinReplicas chpa.Spec.MaxReplicas
  if desired ≠ currentReplicas dep then
    let dep1 := { dep with Replicas := some desired }
    match w.updateDeployment dep1 with
    | some err =>
      let chpa1 := setCondition chpa w.now .ConditionFalse "ScaleFailed" err.Error
      { result := requeueAfter chpa1, err := some err, panicked := false,
        trace := tr ++ [.updateDeployment dep1, .setCondition .ConditionFalse "ScaleFailed",
          .event "Warning" "ScaleFailed"],
        chpa := some chpa1 }
    | none =>
      let chpa1 := { chpa with Status := { chpa.Status with LastScaleTime := some w.now } }
      Reconcile.commit w chpa1 desired value
        (tr ++ [.updateDeployment dep1, .event "Normal" "Scaled"])
  else Reconcile.commit w chpa desired value tr

/-- Lines 112-118 of `Reconcile`: evaluate the query. -/
def Reconcile.query (w : World) (chpa : CustomHPA) (dep : Deployment) (tr : List Effect) :
    Outcome :=
  let tr1 := tr ++ [.queryInstant chpa.Spec.PrometheusURL chpa.Spec.PromQL]
  match QueryInstant w.ParseFloat w.httpGet chpa.Spec.PrometheusURL chpa.Spec.PromQL with
  | .panic => { result := {}, err := none, panicked := true, trace := tr1, chpa := some chpa }
  | .error msg =>
    let chpa1 := setCondition chpa w.now .ConditionFalse "QueryFailed" msg
    { result := requeueAfter chpa1, err := none, panicked := false,
      trace := tr1 ++ [.setCondition .ConditionFalse "QueryFailed", .event "Warning" "QueryFailed"],
      chpa := some chpa1 }
  | .ok value => Reconcile.scale w chpa dep value tr1

/-- Lines 102-104 of `Reconcile`: a nil annotation map is replaced by an empty one. -/
def Reconcile.nonNilAnnotations (dep : Deployment) : Deployment :=
  if dep.Annotations.isNone then { dep with Annotations := some [] } else dep

/-- Lines 85-110 of `Reconcile`: the validation gate, the target lookup and the
ownership annotation. -/
def Reconcile.active (w : World) (chpa : CustomHPA) (tr : List Effect) : Outcome :=
  -- Validate min/max
  if chpa.Spec.MinReplicas < 0 ∨ chpa.Spec.MaxReplicas ≤ 0
      ∨ chpa.Spec.MinReplicas > chpa.Spec.MaxReplicas then
    let chpa1 := setCondition chpa w.now .ConditionFalse "InvalidSpec" "invalid min/max replicas"
    { result := {}, err := none, panicked := false,
      trace := tr ++ [.setCondition .ConditionFalse "InvalidSpec", .event "Warning" "InvalidSpec"],
      chpa := some chpa1 }
  else
    -- Fetch target Deployment
    let key := Reconcile.targetKey chpa
    let tr1 := tr ++ [.getDeployment key]
    match w.getDeployment key with
    | .error err =>
      let chpa1 := setCondition chpa w.now .ConditionFalse "TargetNotFound" err.Error
      { result := requeueAfter chpa1, err := IgnoreNotFound err, panicked := false,
        trace := tr1 ++ [.setCondition .ConditionFalse "TargetNotFound",
          .event "Warning" "TargetNotFound"],
        chpa := some chpa1 }
    | .ok dep0 =>
      -- Mark managed annotation
      let dep := Reconcile.nonNilAnnotations dep0
      if dep.Annotations.get managedAnno ≠ chpa.Name then
        let dep1 := { dep with Annotations := dep.Annotations.set managedAnno chpa.Name }
        match w.updateDeployment dep1 with
        | some err =>
          { result := {}, err := some err, panicked := false,
            trace := tr1 ++ [.updateDeployment dep1], chpa := some chpa }
        | none => Reconcile.query w chpa dep1 (tr1 ++ [.updateDeployment dep1])
      else Reconcile.query w chpa dep tr1

/-- The method `Reconcile`. -/
def Reconcile (w : World) (req : NamespacedName) : Outcome :=
  match w.getCustomHPA req with
  | .error err =>
    { result := {}, err := IgnoreNotFound err, panicked := false,
      trace := [.getCustomHPA req], chpa := none }
  | .ok chpa =>
    -- Handle deletion & finalizer
    if chpa.DeletionTimestamp.isSome then Reconcile.terminating w chpa [.getCustomHPA req]
    -- Ensure finalizer
    else if ¬ ContainsFinalizer chpa finalizerName then
      let chpa1 := AddFinalizer chpa finalizerName
      match w.updateCustomHPA chpa1 with
      | some err =>
        { result := {}, err := some err, panicked := false,
          trace := [.getCustomHPA req, .updateCustomHPA chpa1], chpa := some chpa1 }
      | none =>
        { result := { Requeue := true }, err := none, panicked := false,
          trace := [.getCustomHPA req, .updateCustomHPA chpa1], chpa := some chpa1 }
    else Reconcile.active w chpa [.getCustomHPA req]

/-! ## Reading a condition list -/

/-- The first condition of type "Ready", if any. -/
def readyCondition (conds : List Condition) : Option Condition :=
  conds.find? (fun c => c.CondType = "Ready")

/-- The number of conditions of type "Ready". -/
def readyCount (conds : List Condition) : Nat :=
  conds.countP (fun c => c.CondType = "Ready")

/-- The conditions of every other type, in order. -/
def otherConditions (conds : List Condition) : List Condition :=
  conds.filter (fun c => c.CondType ≠ "Ready")

/-! ## Reading a pass -/

/-- The poll delay in the words of the specification, in nanoseconds:
`pollIntervalSeconds` if present and `> 0`, else 30 seconds. -/
def nextDelay (chpa : CustomHPA) : Int :=
  match chpa.Spec.IntervalSeconds with
  | some s => if 0 < s then s * 1000000000 else 30000000000
  | none => 30000000000

/-- The deployment that the ownership write of lines 105-106 sends: `dep` with the
managed annotation set to `name`. -/
def markedDeployment (dep : Deployment) (name : String) : Deployment :=
  { dep with Annotations := (Reconcile.nonNilAnnotations dep).Annotations.set managedAnno name }

/-- The managed annotation of a workload, if it has one. -/
def managedMarker (dep : Deployment) : Option String :=
  match dep.Annotations with
  | none => none
  | some kvs => kvs.lookup managedAnno

/-! ## Sample inputs -/

/-- A policy named `web-hpa` for the workload `web`, carrying the finalizer, with no
poll interval set. -/
def examplePolicy (minReplicas maxReplicas : Int) : CustomHPA :=
  { Name := "web-hpa"
    Namespace := "default"
    Generation := 1
    DeletionTimestamp := none
    Finalizers := [finalizerName]
    Spec :=
      { MinReplicas := minReplicas
        MaxReplicas := maxReplicas
        IntervalSeconds := none
        TargetRef := { Name := "web", Namespace := "" }
        PrometheusURL := "http://prometheus:9090"
        PromQL := "sum(rate(http_requests_total[1m]))" }
    Status :=
      { CurrentReplicas := 0
        LastQueryValue := .finite 0
        LastScaleTime := none
        Conditions := [] } }

/-- The workload `web`. -/
def exampleDeployment (annotations : StringMap) (replicas : Option Int) : Deployment :=
  { Name := "web", Namespace := "default", Annotations := annotations, Replicas := replicas }

/-- A world that serves one policy, one answer to the workload lookup and one HTTP
reply; every update succeeds. -/
def exampleWorld (chpa : CustomHPA) (dep : Except ApiError Deployment) (reply : HttpReply) :
    World :=
  { getCustomHPA := fun _ => .ok chpa
    getDeployment := fun _ => dep
    updateDeployment := fun _ => none
    updateCustomHPA := fun _ => none
    statusUpdate := fun _ => none
    httpGet := fun _ _ => reply
    ParseFloat := fun t =>
      if t = "3.7" then .ok (.finite (mkRat 37 10))
      else if t = "0" then .ok (.finite 0)
      else .error "invalid syntax"
    now := 100 }

/-- The request key of `examplePolicy`. -/
def exampleRequest : NamespacedName := { Namespace := "default", Name := "web-hpa" }

/-- An HTTP 200 reply with status "success" and the given data. -/
def successReply (resultType : String) (result : List JSON) : HttpReply :=
  .response 200 (.ok { Status := "success", Data := ⟨resultType, result⟩, Error := "" })

/-! ## Theorems -/

theorem wrap32_of_isInt32 {x : Int} (h : isInt32 x) : wrap32 x = x := by
  unfold wrap32; unfold isInt32 at h; omega

theorem Float64.not_gtZero_of_leZero {v : Float64} (h : v.leZero = true) : v.gtZero = false := by
  cases v <;> simp_all [Float64.gtZero, Float64.leZero]

/-! ### Scaling decision -/

/-- The only workload write of the scaling step sends the count `Reconcile.desired`, and
only when it differs from the current count. -/
theorem Reconcile.scale_writes (w : World) (chpa : CustomHPA) (dep : Deployment)
    (value : Float64) (tr : List Effect) (d : Deployment)
    (h : Effect.updateDeployment d ∈ (Reconcile.scale w chpa dep value tr).trace) :
    Effect.updateDeployment d ∈ tr
    ∨ (d = { dep with Replicas := some (Reconcile.desired (currentReplicas dep) value
          chpa.Spec.MinReplicas chpa.Spec.MaxReplicas) }
        ∧ Reconcile.desired (currentReplicas dep) value chpa.Spec.MinReplicas
            chpa.Spec.MaxReplicas ≠ currentReplicas dep) := by
  unfold Reconcile.scale Reconcile.commit at h
  dsimp only at h
  split at h
  · rename_i hne
    split at h <;> simp at h <;> rcases h with h | h
    · exact Or.inl h
    · exact Or.inr ⟨h, hne⟩
    · exact Or.inl h
    · exact Or.inr ⟨h, hne⟩
  · simp at h
    exact Or.inl h

/-- C1, as stated, fails: with `current = 0`, `min = 2`, `max = 5` and a positive metric
value the pass computes `desired = 1`, which is `min(current + 1, max)` but lies below
`min`; the pass writes that count to the workload. -/
theorem scale_up_below_min_counterexample :
    isInt32 0 ∧ isInt32 2 ∧ isInt32 5 ∧ (2 : Int) ≤ 5 ∧ (Float64.finite 1).gtZero = true
    ∧ Reconcile.desired 0 (.finite 1) 2 5 = 1
    ∧ ¬ (2 ≤ Reconcile.desired 0 (.finite 1) 2 5 ∧ Reconcile.desired 0 (.finite 1) 2 5 ≤ 5)
    ∧ Effect.updateDeployment (exampleDeployment (some [(managedAnno, "web-hpa")]) (some 1))
        ∈ (Reconcile
            (exampleWorld (examplePolicy 2 5)
              (.ok (exampleDeployment (some [(managedAnno, "web-hpa")]) (some 0)))
              (successReply "scalar" [.num (.finite 1700000000), .str "3.7"]))
            exampleRequest).trace := by
  decide

/-- C1 (amended): for int32 `current < 2^31 - 1`, `min ≤ max` and a metric value `> 0`,
the desired count computed by the pass equals `min(current + 1, max)`, is at most `max`,
and is at least `min` exactly when `current + 1 ≥ min`. -/
theorem scale_up_desired (current minReplicas maxReplicas : Int) (value : Float64)
    (hc : isInt32 current) (hno : current < 2147483647) (hle : minReplicas ≤ maxReplicas)
    (hv : value.gtZero = true) :
    Reconcile.desired current value minReplicas maxReplicas = min (current + 1) maxReplicas
    ∧ Reconcile.desired current value minReplicas maxReplicas ≤ maxReplicas
    ∧ (minReplicas ≤ Reconcile.desired current value minReplicas maxReplicas
        ↔ minReplicas ≤ current + 1) := by
  have hw : wrap32 (current + 1) = current + 1 :=
    wrap32_of_isInt32 (by unfold isInt32 at hc ⊢; omega)
  unfold Reconcile.desired
  rw [if_pos hv]
  dsimp only
  rw [hw]
  split_ifs <;> omega

/-- Scenario A of the specification: bounds 1..5, two replicas, metric value 3.7. -/
theorem scale_up_desired_witness :
    Reconcile.desired 2 (.finite (mkRat 37 10)) 1 5 = min (2 + 1) 5
    ∧ Reconcile.desired 2 (.finite (mkRat 37 10)) 1 5 ≤ 5
    ∧ ((1 : Int) ≤ Reconcile.desired 2 (.finite (mkRat 37 10)) 1 5 ↔ (1 : Int) ≤ 2 + 1) :=
  scale_up_desired 2 1 5 (.finite (mkRat 37 10)) (by decide) (by decide) (by decide) (by decide)

/-- C2: for int32 `current` and `min` (with `min ≤ max`) and a metric value `≤ 0`, the
desired count computed by the pass equals `max(current - 1, min)`. -/
theorem scale_down_desired (current minReplicas maxReplicas : Int) (value : Float64)
    (hc : isInt32 current) (hmin : isInt32 minReplicas) (_hle : minReplicas ≤ maxReplicas)
    (hv : value.leZero = true) :
    Reconcile.desired current value minReplicas maxReplicas = max (current - 1) minReplicas := by
  have hg := Float64.not_gtZero_of_leZero hv
  unfold Reconcile.desired
  rw [if_neg (by simp [hg])]
  dsimp only
  by_cases h : current > minReplicas
  · have hw : wrap32 (current - 1) = current - 1 :=
      wrap32_of_isInt32 (by unfold isInt32 at hc hmin ⊢; omega)
    rw [if_pos h, hw]
    split_ifs <;> omega
  · rw [if_neg h]
    split_ifs <;> omega

/-- Scenario B of the specification: bounds 2..5, two replicas, metric value 0: the
desired count stays at the floor. -/
theorem scale_down_desired_witness :
    Reconcile.desired 2 (.finite 0) 2 5 = max (2 - 1) 2 :=
  scale_down_desired 2 2 5 (.finite 0) (by decide) (by decide) (by decide) (by decide)

/-- The else branch of lines 126-133 runs for every value that is not `> 0` (zero,
negative values, NaN), not only for `value == 0` as the comment above `Reconcile` has it:
all of them scale down by one, down to `min`. -/
theorem Reconcile.desired_of_not_gtZero (current minReplicas maxReplicas : Int)
    (value : Float64) (hc : isInt32 current) (hmin : isInt32 minReplicas)
    (hv : value.gtZero = false) :
    Reconcile.desired current value minReplicas maxReplicas = max (current - 1) minReplicas := by
  unfold Reconcile.desired
  rw [if_neg (by simp [hv])]
  dsimp only
  by_cases h : current > minReplicas
  · have hw : wrap32 (current - 1) = current - 1 :=
      wrap32_of_isInt32 (by unfold isInt32 at hc hmin ⊢; omega)
    rw [if_pos h, hw]
    split_ifs <;> omega
  · rw [if_neg h]
    split_ifs <;> omega

/-- C3, as stated, fails: the policy `{min: 1, max: 5}` passes the validation gate, and
with ten current replicas and a positive metric value the pass computes `desired = 5`
and writes it: a change of five in one pass. -/
theorem step_counterexample :
    (0 : Int) ≤ 1 ∧ (1 : Int) ≤ 5 ∧ isInt32 10
    ∧ Reconcile.desired 10 (.finite 1) 1 5 = 5
    ∧ ¬ (|Reconcile.desired 10 (.finite 1) 1 5 - 10| ≤ 1)
    ∧ Effect.updateDeployment (exampleDeployment (some [(managedAnno, "web-hpa")]) (some 5))
        ∈ (Reconcile
            (exampleWorld (examplePolicy 1 5)
              (.ok (exampleDeployment (some [(managedAnno, "web-hpa")]) (some 10)))
              (successReply "scalar" [.num (.finite 1700000000), .str "3.7"]))
            exampleRequest).trace := by
  decide

/-- C3 (amended): for a policy that passes the validation gate, an int32 current count
and a metric value such that, when the value is `> 0`, `current ≤ max + 1` and
`current < 2^31 - 1`, and, when it is not, `current ≥ min - 1`: the desired count
differs from the current one by at most 1, and by exactly 1 whenever it differs (which
is when the pass writes it). -/
theorem step_at_most_one (current minReplicas maxReplicas : Int) (value : Float64)
    (hc : isInt32 current)
    (hvalid : 0 ≤ minReplicas ∧ minReplicas ≤ maxReplicas ∧ 1 ≤ maxReplicas)
    (hup : value.gtZero = true → current ≤ maxReplicas + 1 ∧ current < 2147483647)
    (hdown : value.gtZero = false → minReplicas - 1 ≤ current) :
    |Reconcile.desired current value minReplicas maxReplicas - current| ≤ 1
    ∧ (Reconcile.desired current value minReplicas maxReplicas ≠ current →
        |Reconcile.desired current value minReplicas maxReplicas - current| = 1) := by
  obtain ⟨h0, h1, h2⟩ := hvalid
  unfold Reconcile.desired
  rw [abs_le, abs_eq (by norm_num : (0 : Int) ≤ 1)]
  cases hv : value.gtZero
  · have hlo := hdown hv
    rw [if_neg (by simp)]
    dsimp only
    by_cases h : current > minReplicas
    · have hw : wrap32 (current - 1) = current - 1 :=
        wrap32_of_isInt32 (by unfold isInt32 at hc ⊢; omega)
      rw [if_pos h, hw]
      split_ifs <;> omega
    · rw [if_neg h]
      split_ifs <;> omega
  · obtain ⟨hhi, hno⟩ := hup hv
    have hw : wrap32 (current + 1) = current + 1 :=
      wrap32_of_isInt32 (by unfold isInt32 at hc ⊢; omega)
    rw [if_pos rfl]
    dsimp only
    rw [hw]
    split_ifs <;> omega

/-- A valid policy `{min: 1, max: 5}`: two replicas and the metric value 3.7 (desired 3),
and ten replicas and the metric value 0 (desired 9). -/
theorem step_at_most_one_witness :
    (|Reconcile.desired 2 (.finite (mkRat 37 10)) 1 5 - 2| ≤ 1
      ∧ (Reconcile.desired 2 (.finite (mkRat 37 10)) 1 5 ≠ 2 →
          |Reconcile.desired 2 (.finite (mkRat 37 10)) 1 5 - 2| = 1))
    ∧ (|Reconcile.desired 10 (.finite 0) 1 5 - 10| ≤ 1
      ∧ (Reconcile.desired 10 (.finite 0) 1 5 ≠ 10 →
          |Reconcile.desired 10 (.finite 0) 1 5 - 10| = 1)) :=
  ⟨step_at_most_one 2 1 5 (.finite (mkRat 37 10)) (by decide) (by decide) (by decide)
      (by decide),
    step_at_most_one 10 1 5 (.finite 0) (by decide) (by decide) (by decide) (by decide)⟩

/-- The range in which the step is at most 1 cannot be widened: below `2^31 - 1`, a
step of at most 1 on a positive value needs `current ≤ max + 1`, and on any other value
it needs `current ≥ min - 1`. -/
theorem Reconcile.desired_step_converse (current minReplicas maxReplicas : Int)
    (value : Float64) (hc : isInt32 current)
    (hvalid : 0 ≤ minReplicas ∧ minReplicas ≤ maxReplicas ∧ 1 ≤ maxReplicas)
    (hno : value.gtZero = true → current < 2147483647)
    (h : |Reconcile.desired current value minReplicas maxReplicas - current| ≤ 1) :
    (value.gtZero = true → current ≤ maxReplicas + 1)
    ∧ (value.gtZero = false → minReplicas - 1 ≤ current) := by
  obtain ⟨h0, h1, h2⟩ := hvalid
  unfold Reconcile.desired at h
  rw [abs_le] at h
  cases hv : value.gtZero
  · refine ⟨fun h' => absurd h' (by simp), fun _ => ?_⟩
    rw [hv, if_neg (by simp)] at h
    dsimp only at h
    by_cases hgt : current > minReplicas
    · omega
    · rw [if_neg hgt] at h
      split_ifs at h <;> omega
  · refine ⟨fun _ => ?_, fun h' => absurd h' (by simp)⟩
    have hw : wrap32 (current + 1) = current + 1 :=
      wrap32_of_isInt32 (by have := hno hv; unfold isInt32 at hc ⊢; omega)
    rw [hv, if_pos rfl] at h
    dsimp only at h
    rw [hw] at h
    split_ifs at h <;> omega

/-! ### Condition upsert -/

theorem setCondition.loop_spec (cond : Condition) (hT : cond.CondType = "Ready")
    (conds : List Condition) :
    ((setCondition.loop cond conds).2 = true →
        readyCount (setCondition.loop cond conds).1 = readyCount conds
        ∧ 1 ≤ readyCount conds
        ∧ readyCondition (setCondition.loop cond conds).1 = some cond)
    ∧ ((setCondition.loop cond conds).2 = false →
        (setCondition.loop cond conds).1 = conds ∧ readyCount conds = 0
        ∧ readyCondition conds = none)
    ∧ otherConditions (setCondition.loop cond conds).1 = otherConditions conds := by
  induction conds with
  | nil => simp [setCondition.loop, readyCount, readyCondition, otherConditions]
  | cons c cs ih =>
    obtain ⟨ih1, ih2, ih3⟩ := ih
    simp only [readyCount, readyCondition, otherConditions] at ih1 ih2 ih3 ⊢
    by_cases h : c.CondType = "Ready"
    · simp [setCondition.loop, hT, h]
    · simp only [setCondition.loop, hT, h, if_false]
      refine ⟨fun hf => ?_, fun hf => ?_, ?_⟩
      · obtain ⟨a, b, d⟩ := ih1 hf
        simp only [List.countP_cons, List.find?_cons, h, decide_False, a, d]
        simpa using b
      · obtain ⟨a, b, d⟩ := ih2 hf
        simp [List.countP_cons, List.find?_cons, h, a, b, d]
      · simp only [List.filter_cons, h, ih3]

theorem setCondition_spec (chpa : CustomHPA) (now : Time) (status : ConditionStatus)
    (reason msg : String) :
    readyCount (setCondition chpa now status reason msg).Status.Conditions
        = max 1 (readyCount chpa.Status.Conditions)
    ∧ readyCondition (setCondition chpa now status reason msg).Status.Conditions
        = some ⟨"Ready", status, reason, msg, now, chpa.Generation⟩
    ∧ otherConditions (setCondition chpa now status reason msg).Status.Conditions
        = otherConditions chpa.Status.Conditions := by
  obtain ⟨h1, h2, h3⟩ :=
    setCondition.loop_spec ⟨"Ready", status, reason, msg, now, chpa.Generation⟩ rfl
      chpa.Status.Conditions
  unfold setCondition
  dsimp only
  cases hf : (setCondition.loop ⟨"Ready", status, reason, msg, now, chpa.Generation⟩
      chpa.Status.Conditions).2
  · obtain ⟨a, b, d⟩ := h2 hf
    simp only [Bool.false_eq_true, if_false, a]
    simp only [readyCount, readyCondition, otherConditions] at b d ⊢
    simp [List.countP_append, List.find?_append, List.filter_append, b, d]
  · obtain ⟨a, b, d⟩ := h1 hf
    simp only [if_true, a, d, h3, true_and, and_true]
    omega

theorem setCondition_Generation (chpa : CustomHPA) (now : Time) (status : ConditionStatus)
    (reason msg : String) :
    (setCondition chpa now status reason msg).Generation = chpa.Generation := by
  unfold setCondition; dsimp only; split <;> rfl

theorem setCondition_Spec (chpa : CustomHPA) (now : Time) (status : ConditionStatus)
    (reason msg : String) :
    (setCondition chpa now status reason msg).Spec = chpa.Spec := by
  unfold setCondition; dsimp only; split <;> rfl

/-- C9, as stated, fails: starting from a list that already holds two "Ready" entries,
two consecutive `setCondition` calls leave two "Ready" entries, not one. -/
theorem setCondition_duplicates_counterexample :
    readyCount
      (setCondition
        (setCondition
          { Name := "p", Namespace := "default", Generation := 1, DeletionTimestamp := none,
            Finalizers := [],
            Spec := ⟨1, 5, none, ⟨"web", ""⟩, "http://prom", "up"⟩,
            Status := ⟨0, .finite 0, none,
              [⟨"Ready", .ConditionTrue, "a", "a", 0, 1⟩,
               ⟨"Ready", .ConditionFalse, "b", "b", 0, 1⟩]⟩ }
          1 .ConditionFalse "QueryFailed" "x")
        2 .ConditionTrue "Reconciled" "y").Status.Conditions = 2 := by
  decide

/-- C9 (amended): after two consecutive `setCondition` calls on any policy, the number
of "Ready" entries is `max 1 k`, where `k` is their number in the initial list (so
exactly one whenever the initial list holds at most one); the first "Ready" entry
carries the status, reason, message, time and observed generation of the second call;
and the entries of other types keep their values and relative order. -/
theorem setCondition_twice (chpa : CustomHPA) (t1 t2 : Time) (s1 s2 : ConditionStatus)
    (r1 r2 m1 m2 : String) :
    readyCount (setCondition (setCondition chpa t1 s1 r1 m1) t2 s2 r2 m2).Status.Conditions
        = max 1 (readyCount chpa.Status.Conditions)
    ∧ readyCondition (setCondition (setCondition chpa t1 s1 r1 m1) t2 s2 r2 m2).Status.Conditions
        = some ⟨"Ready", s2, r2, m2, t2, chpa.Generation⟩
    ∧ otherConditions (setCondition (setCondition chpa t1 s1 r1 m1) t2 s2 r2 m2).Status.Conditions
        = otherConditions chpa.Status.Conditions := by
  obtain ⟨a1, _, c1⟩ := setCondition_spec chpa t1 s1 r1 m1
  obtain ⟨a2, b2, c2⟩ := setCondition_spec (setCondition chpa t1 s1 r1 m1) t2 s2 r2 m2
  rw [setCondition_Generation] at b2
  refine ⟨?_, b2, c2.trans c1⟩
  rw [a2, a1]
  omega

/-! ### Metric result extraction -/

/-- C7, evaluated where the code departs from it: a "success" envelope whose vector
result starts with something that is not a JSON object (a number, `null`, a string, an
array) makes `QueryInstant` panic instead of yielding 0. -/
theorem QueryInstant_vector_non_object_panics :
    QueryInstant (exampleWorld (examplePolicy 1 5) (.ok (exampleDeployment none none))
        (successReply "vector" [.num (.finite 1)])).ParseFloat
      (fun _ _ => successReply "vector" [.num (.finite 1)])
      "http://prometheus:9090" "up" = .panic
    ∧ (∀ pf status err rest,
        QueryInstant.extract pf ⟨status, ⟨"vector", .null :: rest⟩, err⟩ = .panic
        ∧ QueryInstant.extract pf ⟨status, ⟨"vector", .str "1" :: rest⟩, err⟩ = .panic
        ∧ QueryInstant.extract pf ⟨status, ⟨"vector", .arr [.num (.finite 0), .str "1"] :: rest⟩,
            err⟩ = .panic)
    ∧ (Reconcile (exampleWorld (examplePolicy 1 5)
          (.ok (exampleDeployment (some [(managedAnno, "web-hpa")]) (some 2)))
          (successReply "vector" [.num (.finite 1)])) exampleRequest).panicked = true := by
  refine ⟨by decide, fun pf status err rest => ⟨rfl, rfl, rfl⟩, by decide⟩

/-- Every shape other than a vector that starts with a non-object is handled as C7
says: the scalar and vector cases return what `parseFloat` makes of the second element,
and all remaining shapes yield 0 without error. -/
theorem QueryInstant.extract_shapes (pf : String → Except String Float64) (status err : String) :
    (∀ a v rest, QueryInstant.extract pf ⟨status, ⟨"scalar", a :: v :: rest⟩, err⟩
        = parseFloat pf v)
    ∧ (∀ m a v rest more, m.lookup "value" = some (.arr (a :: v :: rest)) →
        QueryInstant.extract pf ⟨status, ⟨"vector", .obj m :: more⟩, err⟩ = parseFloat pf v)
    ∧ (∀ rt result, rt ≠ "scalar" → rt ≠ "vector" →
        QueryInstant.extract pf ⟨status, ⟨rt, result⟩, err⟩ = .ok (.finite 0))
    ∧ QueryInstant.extract pf ⟨status, ⟨"scalar", []⟩, err⟩ = .ok (.finite 0)
    ∧ (∀ a, QueryInstant.extract pf ⟨status, ⟨"scalar", [a]⟩, err⟩ = .ok (.finite 0))
    ∧ QueryInstant.extract pf ⟨status, ⟨"vector", []⟩, err⟩ = .ok (.finite 0)
    ∧ (∀ m more, m.lookup "value" = none →
        QueryInstant.extract pf ⟨status, ⟨"vector", .obj m :: more⟩, err⟩ = .ok (.finite 0))
    ∧ (∀ m more x, m.lookup "value" = some x → (∀ a v rest, x ≠ .arr (a :: v :: rest)) →
        QueryInstant.extract pf ⟨status, ⟨"vector", .obj m :: more⟩, err⟩ = .ok (.finite 0)) := by
  refine ⟨fun _ _ _ => rfl, ?_, ?_, rfl, fun _ => rfl, rfl, ?_, ?_⟩
  · intro m a v rest more h
    simp [QueryInstant.extract, h]
  · intro rt result h1 h2
    simp [QueryInstant.extract, h1, h2]
  · intro m more h
    simp [QueryInstant.extract, h]
  · intro m more x h hx
    simp only [QueryInstant.extract, h]
    simp only [reduceIte, String.reduceEq]
    split
    · rename_i heq
      simp only [Option.some.injEq] at heq
      exact absurd heq (hx _ _ _)
    · rfl

/-! ### Shape of a pass -/

theorem Reconcile_active_eq (w : World) (req : NamespacedName) (chpa : CustomHPA)
    (hget : w.getCustomHPA req = .ok chpa) (hdel : chpa.DeletionTimestamp = none)
    (hfin : ContainsFinalizer chpa finalizerName = true) :
    Reconcile w req = Reconcile.active w chpa [.getCustomHPA req] := by
  simp [Reconcile, hget, hdel, hfin]

theorem Reconcile_terminating_eq (w : World) (req : NamespacedName) (chpa : CustomHPA)
    (hget : w.getCustomHPA req = .ok chpa) (hdel : chpa.DeletionTimestamp.isSome = true) :
    Reconcile w req = Reconcile.terminating w chpa [.getCustomHPA req] := by
  simp [Reconcile, hget, hdel]

/-! ### Status commit -/

theorem Reconcile.commit_status (w : World) (chpa : CustomHPA) (desired : Int) (value : Float64)
    (tr : List Effect) (h1 : ∀ c, Effect.statusUpdate c ∉ tr)
    (h2 : ∀ s r, Effect.setCondition s r ∉ tr) :
    ((∃ c, Effect.statusUpdate c ∈ (Reconcile.commit w chpa desired value tr).trace)
        ↔ Effect.setCondition .ConditionTrue "Reconciled"
            ∈ (Reconcile.commit w chpa desired value tr).trace)
    ∧ (∀ reason, Effect.setCondition .ConditionFalse reason
          ∈ (Reconcile.commit w chpa desired value tr).trace →
        ∀ c, Effect.statusUpdate c ∉ (Reconcile.commit w chpa desired value tr).trace) := by
  simp [Reconcile.commit, h1, h2]

theorem Reconcile.scale_status (w : World) (chpa : CustomHPA) (dep : Deployment)
    (value : Float64) (tr : List Effect) (h1 : ∀ c, Effect.statusUpdate c ∉ tr)
    (h2 : ∀ s r, Effect.setCondition s r ∉ tr) :
    ((∃ c, Effect.statusUpdate c ∈ (Reconcile.scale w chpa dep value tr).trace)
        ↔ Effect.setCondition .ConditionTrue "Reconciled"
            ∈ (Reconcile.scale w chpa dep value tr).trace)
    ∧ (∀ reason, Effect.setCondition .ConditionFalse reason
          ∈ (Reconcile.scale w chpa dep value tr).trace →
        ∀ c, Effect.statusUpdate c ∉ (Reconcile.scale w chpa dep value tr).trace) := by
  unfold Reconcile.scale
  dsimp only
  split
  · split
    · simp [h1, h2]
    · exact Reconcile.commit_status _ _ _ _ _ (by simp [h1]) (by simp [h2])
  · exact Reconcile.commit_status _ _ _ _ _ h1 h2

theorem Reconcile.query_status (w : World) (chpa : CustomHPA) (dep : Deployment)
    (tr : List Effect) (h1 : ∀ c, Effect.statusUpdate c ∉ tr)
    (h2 : ∀ s r, Effect.setCondition s r ∉ tr) :
    ((∃ c, Effect.statusUpdate c ∈ (Reconcile.query w chpa dep tr).trace)
        ↔ Effect.setCondition .ConditionTrue "Reconciled" ∈ (Reconcile.query w chpa dep tr).trace)
    ∧ (∀ reason, Effect.setCondition .ConditionFalse reason
          ∈ (Reconcile.query w chpa dep tr).trace →
        ∀ c, Effect.statusUpdate c ∉ (Reconcile.query w chpa dep tr).trace) := by
  unfold Reconcile.query
  dsimp only
  split
  · simp [h1, h2]
  · simp [h1, h2]
  · exact Reconcile.scale_status _ _ _ _ _ (by simp [h1]) (by simp [h2])

theorem Reconcile.active_status (w : World) (chpa : CustomHPA)
    (tr : List Effect) (h1 : ∀ c, Effect.statusUpdate c ∉ tr)
    (h2 : ∀ s r, Effect.setCondition s r ∉ tr) :
    ((∃ c, Effect.statusUpdate c ∈ (Reconcile.active w chpa tr).trace)
        ↔ Effect.setCondition .ConditionTrue "Reconciled" ∈ (Reconcile.active w chpa tr).trace)
    ∧ (∀ reason, Effect.setCondition .ConditionFalse reason
          ∈ (Reconcile.active w chpa tr).trace →
        ∀ c, Effect.statusUpdate c ∉ (Reconcile.active w chpa tr).trace) := by
  unfold Reconcile.active
  dsimp only
  split
  · simp [h1, h2]
  · split
    · simp [h1, h2]
    · split
      · split
        · simp [h1, h2]
        · exact Reconcile.query_status _ _ _ _ (by simp [h1]) (by simp [h2])
      · exact Reconcile.query_status _ _ _ _ (by simp [h1]) (by simp [h2])

theorem Reconcile.terminating_status (w : World) (chpa : CustomHPA) (tr : List Effect)
    (h1 : ∀ c, Effect.statusUpdate c ∉ tr) (h2 : ∀ s r, Effect.setCondition s r ∉ tr) :
    (∀ c, Effect.statusUpdate c ∉ (Reconcile.terminating w chpa tr).trace)
    ∧ (∀ s r, Effect.setCondition s r ∉ (Reconcile.terminating w chpa tr).trace) := by
  unfold Reconcile.terminating Reconcile.dropFinalizer
  dsimp only
  split
  · split
    · split
      · split <;> simp [h1, h2]
      · simp [h1, h2]
    · simp [h1, h2]
  · simp [h1, h2]

/-- C10: in every pass of `Reconcile`, a status update is sent if and only if the pass
reaches the Ready=True/"Reconciled" step; a pass that sets the Ready condition to False
(whatever the reason: InvalidSpec, TargetNotFound, QueryFailed, ScaleFailed) sends no
status update, so that condition stays on the in-memory copy. -/
theorem status_update_iff_reconciled (w : World) (req : NamespacedName) :
    ((∃ c, Effect.statusUpdate c ∈ (Reconcile w req).trace)
        ↔ Effect.setCondition .ConditionTrue "Reconciled" ∈ (Reconcile w req).trace)
    ∧ (∀ reason, Effect.setCondition .ConditionFalse reason ∈ (Reconcile w req).trace →
        ∀ c, Effect.statusUpdate c ∉ (Reconcile w req).trace) := by
  unfold Reconcile
  split
  · simp
  · dsimp only
    split
    · rename_i chpa _ _
      have h := Reconcile.terminating_status w chpa [.getCustomHPA req] (by simp) (by simp)
      simp [h.1, h.2]
    · split
      · split <;> simp
      · exact Reconcile.active_status _ _ _ (by simp) (by simp)

/-! ### Validation gate -/

theorem Reconcile.scale_conditions (w : World) (chpa : CustomHPA) (dep : Deployment)
    (value : Float64) (tr : List Effect) (s : ConditionStatus) (r : String)
    (h : Effect.setCondition s r ∈ (Reconcile.scale w chpa dep value tr).trace) :
    Effect.setCondition s r ∈ tr ∨ r = "ScaleFailed" ∨ r = "Reconciled" := by
  unfold Reconcile.scale Reconcile.commit at h
  dsimp only at h
  split at h
  · split at h <;> simp at h <;> tauto
  · simp at h; tauto

theorem Reconcile.query_conditions (w : World) (chpa : CustomHPA) (dep : Deployment)
    (tr : List Effect) (s : ConditionStatus) (r : String)
    (h : Effect.setCondition s r ∈ (Reconcile.query w chpa dep tr).trace) :
    Effect.setCondition s r ∈ tr ∨ r = "QueryFailed" ∨ r = "ScaleFailed" ∨ r = "Reconciled" := by
  unfold Reconcile.query at h
  dsimp only at h
  split at h
  · simp at h; tauto
  · simp at h; tauto
  · have := Reconcile.scale_conditions _ _ _ _ _ _ _ h
    simp at this; tauto

theorem Reconcile.query_keeps (w : World) (chpa : CustomHPA) (dep : Deployment)
    (tr : List Effect) (e : Effect) (h : e ∈ tr) : e ∈ (Reconcile.query w chpa dep tr).trace := by
  unfold Reconcile.query Reconcile.scale Reconcile.commit
  dsimp only
  split
  · simp [h]
  · simp [h]
  · split
    · split <;> simp [h]
    · simp [h]

/-- C4: for a policy that is not being deleted and carries the finalizer, the pass takes
the rejection step (Ready=False, reason "InvalidSpec") exactly when `minReplicas < 0`,
`maxReplicas ≤ 0` or `minReplicas > maxReplicas`. On rejection the whole pass is: read
the policy, set the condition, record the event (so no target lookup, no metric query
and no workload write), and the Ready condition of the in-memory policy is False with
reason "InvalidSpec". Otherwise the pass goes on to look up the target. -/
theorem validation_gate (w : World) (req : NamespacedName) (chpa : CustomHPA)
    (hget : w.getCustomHPA req = .ok chpa) (hdel : chpa.DeletionTimestamp = none)
    (hfin : ContainsFinalizer chpa finalizerName = true) :
    (Effect.setCondition .ConditionFalse "InvalidSpec" ∈ (Reconcile w req).trace
        ↔ (chpa.Spec.MinReplicas < 0 ∨ chpa.Spec.MaxReplicas ≤ 0
            ∨ chpa.Spec.MinReplicas > chpa.Spec.MaxReplicas))
    ∧ ((chpa.Spec.MinReplicas < 0 ∨ chpa.Spec.MaxReplicas ≤ 0
          ∨ chpa.Spec.MinReplicas > chpa.Spec.MaxReplicas) →
        (Reconcile w req).trace
          = [.getCustomHPA req, .setCondition .ConditionFalse "InvalidSpec",
              .event "Warning" "InvalidSpec"]
        ∧ ∃ c, (Reconcile w req).chpa = some c
            ∧ readyCondition c.Status.Conditions
              = some ⟨"Ready", .ConditionFalse, "InvalidSpec", "invalid min/max replicas",
                  w.now, chpa.Generation⟩)
    ∧ (¬ (chpa.Spec.MinReplicas < 0 ∨ chpa.Spec.MaxReplicas ≤ 0
          ∨ chpa.Spec.MinReplicas > chpa.Spec.MaxReplicas) →
        Effect.getDeployment (Reconcile.targetKey chpa) ∈ (Reconcile w req).trace) := by
  rw [Reconcile_active_eq w req chpa hget hdel hfin]
  by_cases hinv : chpa.Spec.MinReplicas < 0 ∨ chpa.Spec.MaxReplicas ≤ 0
      ∨ chpa.Spec.MinReplicas > chpa.Spec.MaxReplicas
  · have hout : Reconcile.active w chpa [.getCustomHPA req]
        = { result := {}, err := none, panicked := false,
            trace := [.getCustomHPA req, .setCondition .ConditionFalse "InvalidSpec",
              .event "Warning" "InvalidSpec"],
            chpa := some (setCondition chpa w.now .ConditionFalse "InvalidSpec"
              "invalid min/max replicas") } := by
      unfold Reconcile.active
      rw [if_pos hinv]
      rfl
    rw [hout]
    refine ⟨by simp [hinv], fun _ => ⟨rfl, _, rfl, (setCondition_spec _ _ _ _ _).2.1⟩,
      fun h => absurd hinv h⟩
  · refine ⟨?_, fun h => absurd h hinv, fun _ => ?_⟩
    · simp only [hinv, iff_false]
      unfold Reconcile.active
      rw [if_neg hinv]
      dsimp only
      split
      · simp
      · split
        · split
          · simp
          · intro h
            have := Reconcile.query_conditions _ _ _ _ _ _ h
            simp at this
        · intro h
          have := Reconcile.query_conditions _ _ _ _ _ _ h
          simp at this
    · unfold Reconcile.active
      rw [if_neg hinv]
      dsimp only
      split
      · simp
      · split
        · split
          · simp
          · exact Reconcile.query_keeps _ _ _ _ _ (by simp)
        · exact Reconcile.query_keeps _ _ _ _ _ (by simp)

/-- Scenario C of the specification: the policy `{min: 5, max: 2}` is rejected without
any target lookup. -/
theorem validation_gate_witness :
    (examplePolicy 5 2).Spec.MinReplicas > (examplePolicy 5 2).Spec.MaxReplicas
    ∧ (Reconcile (exampleWorld (examplePolicy 5 2)
          (.ok (exampleDeployment none (some 2))) (successReply "scalar" []))
          exampleRequest).trace
        = [.getCustomHPA exampleRequest, .setCondition .ConditionFalse "InvalidSpec",
            .event "Warning" "InvalidSpec"] :=
  ⟨by decide,
    ((validation_gate (exampleWorld (examplePolicy 5 2)
      (.ok (exampleDeployment none (some 2))) (successReply "scalar" []))
      exampleRequest (examplePolicy 5 2) rfl rfl (by decide)).2.1
        (Or.inr (Or.inr (by decide)))).1⟩

/-! ### Poll delay -/

theorem wrap64_of_small {x : Int} (h0 : 0 ≤ x) (h1 : x ≤ 2147483647) :
    wrap64 (x * 1000000000) = x * 1000000000 := by
  unfold wrap64; omega

theorem requeueAfter_eq_nextDelay (chpa : CustomHPA)
    (hint : ∀ s, chpa.Spec.IntervalSeconds = some s → isInt32 s) :
    requeueAfter chpa = { Requeue := false, RequeueAfter := nextDelay chpa } := by
  unfold requeueAfter nextDelay
  cases h : chpa.Spec.IntervalSeconds with
  | none => simp [wrap64]
  | some s =>
    have hs := hint s h
    unfold isInt32 at hs
    by_cases hpos : 0 < s
    · simp [hpos, wrap64_of_small (le_of_lt hpos) hs.2]
    · simp [hpos, wrap64]

theorem requeueAfter_congr {a b : CustomHPA} (h : a.Spec = b.Spec) :
    requeueAfter a = requeueAfter b := by
  unfold requeueAfter; rw [h]

theorem Reconcile.scale_result (w : World) (chpa : CustomHPA) (dep : Deployment)
    (value : Float64) (tr : List Effect) :
    (Reconcile.scale w chpa dep value tr).result = requeueAfter chpa := by
  unfold Reconcile.scale Reconcile.commit
  dsimp only
  split
  · split
    · exact requeueAfter_congr (setCondition_Spec _ _ _ _ _)
    · exact requeueAfter_congr (setCondition_Spec _ _ _ _ _)
  · exact requeueAfter_congr (setCondition_Spec _ _ _ _ _)

theorem Reconcile.query_result (w : World) (chpa : CustomHPA) (dep : Deployment)
    (tr : List Effect) (h2 : ∀ s r, Effect.setCondition s r ∉ tr)
    (h : ∃ s r, Effect.setCondition s r ∈ (Reconcile.query w chpa dep tr).trace) :
    (Reconcile.query w chpa dep tr).result = requeueAfter chpa := by
  unfold Reconcile.query at h ⊢
  dsimp only at h ⊢
  split
  · rename_i hq
    rw [hq] at h
    simp [h2] at h
  · exact requeueAfter_congr (setCondition_Spec _ _ _ _ _)
  · exact Reconcile.scale_result _ _ _ _ _

/-- C5, as stated, fails: a pass that finds the policy invalid (`{min: 5, max: 2}`, no
poll interval set) returns the empty result, with no requeue delay, not 30 seconds. -/
theorem poll_delay_invalid_counterexample :
    (exampleWorld (examplePolicy 5 2) (.ok (exampleDeployment none (some 2)))
        (successReply "scalar" [])).getCustomHPA exampleRequest = .ok (examplePolicy 5 2)
    ∧ (examplePolicy 5 2).DeletionTimestamp = none
    ∧ ContainsFinalizer (examplePolicy 5 2) finalizerName = true
    ∧ (examplePolicy 5 2).Spec.IntervalSeconds = none
    ∧ (Reconcile (exampleWorld (examplePolicy 5 2) (.ok (exampleDeployment none (some 2)))
        (successReply "scalar" [])) exampleRequest).result
        = { Requeue := false, RequeueAfter := 0 }
    ∧ (Reconcile (exampleWorld (examplePolicy 5 2) (.ok (exampleDeployment none (some 2)))
        (successReply "scalar" [])) exampleRequest).result.RequeueAfter ≠ 30 * 1000000000 :=
  ⟨rfl, rfl, by decide, rfl, by decide, by decide⟩

/-- C5 (amended): for a policy that is not being deleted and carries the finalizer (its
poll interval, when set, an int32), a pass that finds the policy invalid returns the
empty result (no requeue delay); a pass over a policy that passes the validation gate
and sets the Ready condition (on success, or on target-not-found, query failure or
scale failure) returns a requeue delay of `pollIntervalSeconds` seconds when that field
is present and `> 0`, and of 30 seconds otherwise. -/
theorem poll_delay (w : World) (req : NamespacedName) (chpa : CustomHPA)
    (hget : w.getCustomHPA req = .ok chpa) (hdel : chpa.DeletionTimestamp = none)
    (hfin : ContainsFinalizer chpa finalizerName = true)
    (hint : ∀ s, chpa.Spec.IntervalSeconds = some s → isInt32 s) :
    ((chpa.Spec.MinReplicas < 0 ∨ chpa.Spec.MaxReplicas ≤ 0
          ∨ chpa.Spec.MinReplicas > chpa.Spec.MaxReplicas) →
        (Reconcile w req).result = { Requeue := false, RequeueAfter := 0 })
    ∧ (¬ (chpa.Spec.MinReplicas < 0 ∨ chpa.Spec.MaxReplicas ≤ 0
          ∨ chpa.Spec.MinReplicas > chpa.Spec.MaxReplicas) →
        (∃ s r, Effect.setCondition s r ∈ (Reconcile w req).trace) →
        (Reconcile w req).result = { Requeue := false, RequeueAfter := nextDelay chpa }) := by
  rw [Reconcile_active_eq w req chpa hget hdel hfin, ← requeueAfter_eq_nextDelay chpa hint]
  refine ⟨fun hinv => ?_, fun hinv h => ?_⟩
  · unfold Reconcile.active
    rw [if_pos hinv]
  · unfold Reconcile.active at h ⊢
    rw [if_neg hinv] at h ⊢
    dsimp only at h ⊢
    split
    · exact requeueAfter_congr (setCondition_Spec _ _ _ _ _)
    · rename_i dep0 hdep
      rw [hdep] at h
      dsimp only at h
      split
      · rename_i hne
        rw [if_pos hne] at h
        split
        · rename_i err hupd
          rw [hupd] at h
          simp at h
        · rename_i hupd
          rw [hupd] at h
          exact Reconcile.query_result _ _ _ _ (by simp) h
      · rename_i hne
        rw [if_neg hne] at h
        exact Reconcile.query_result _ _ _ _ (by simp) h

/-- Scenario A of the specification: a successful pass with no poll interval set is
rescheduled 30 seconds later. -/
theorem poll_delay_witness :
    (Reconcile (exampleWorld (examplePolicy 1 5)
        (.ok (exampleDeployment (some [(managedAnno, "web-hpa")]) (some 2)))
        (successReply "scalar" [.num (.finite 1700000000), .str "3.7"])) exampleRequest).result
      = { Requeue := false, RequeueAfter := 30000000000 } :=
  (poll_delay (exampleWorld (examplePolicy 1 5)
      (.ok (exampleDeployment (some [(managedAnno, "web-hpa")]) (some 2)))
      (successReply "scalar" [.num (.finite 1700000000), .str "3.7"])) exampleRequest
      (examplePolicy 1 5) rfl rfl (by decide) (by simp [examplePolicy])).2 (by decide)
    ⟨.ConditionTrue, "Reconciled", by decide⟩

/-! ### Cleanup on termination -/

theorem lookup_filter_ne (key : String) (kvs : List (String × String)) :
    (kvs.filter (fun kv => kv.1 ≠ key)).lookup key = none := by
  induction kvs with
  | nil => rfl
  | cons kv rest ih =>
    obtain ⟨k, v⟩ := kv
    by_cases h : k = key
    · rw [List.filter_cons_of_neg (by simp [h])]
      exact ih
    · have hne : (key == k) = false := by simpa using fun h' => h h'.symm
      rw [List.filter_cons_of_pos (by simp [h]), List.lookup_cons, hne]
      exact ih

theorem managedMarker_delete (dep : Deployment) :
    managedMarker { dep with Annotations := dep.Annotations.delete managedAnno } = none := by
  unfold managedMarker StringMap.delete
  cases dep.Annotations with
  | none => rfl
  | some kvs => exact lookup_filter_ne managedAnno kvs

theorem owned_iff_managedMarker (dep : Deployment) (name : String) (hname : name ≠ "") :
    (dep.Annotations.isSome ∧ dep.Annotations.get managedAnno = name)
      ↔ managedMarker dep = some name := by
  unfold managedMarker StringMap.get
  cases dep.Annotations with
  | none => simp
  | some kvs =>
    dsimp only
    cases h : kvs.lookup managedAnno with
    | none =>
      simp only [Option.isSome_some, Option.getD_none, true_and, reduceCtorEq, iff_false]
      exact fun h' => hname h'.symm
    | some v => simp

/-- C6: for every policy with deletion requested and the finalizer present (a policy
read from the control plane, whose name is therefore not empty), every workload update
that the pass issues is the target workload with the managed annotation removed, and it
is issued only when that annotation equals the policy's name; when the annotation holds
another value, is absent, or the workload lookup fails, no workload update is issued. -/
theorem cleanup_non_clobber (w : World) (req : NamespacedName) (chpa : CustomHPA)
    (hget : w.getCustomHPA req = .ok chpa) (hdel : chpa.DeletionTimestamp.isSome = true)
    (hfin : ContainsFinalizer chpa finalizerName = true) (hname : chpa.Name ≠ "") :
    (∀ d, Effect.updateDeployment d ∈ (Reconcile w req).trace →
      ∃ dep, w.getDeployment (Reconcile.targetKey chpa) = .ok dep
        ∧ managedMarker dep = some chpa.Name
        ∧ d = { dep with Annotations := dep.Annotations.delete managedAnno }
        ∧ managedMarker d = none)
    ∧ ((∀ dep, w.getDeployment (Reconcile.targetKey chpa) = .ok dep →
          managedMarker dep ≠ some chpa.Name) →
        ∀ d, Effect.updateDeployment d ∉ (Reconcile w req).trace) := by
  have key : ∀ d, Effect.updateDeployment d ∈ (Reconcile w req).trace →
      ∃ dep, w.getDeployment (Reconcile.targetKey chpa) = .ok dep
        ∧ managedMarker dep = some chpa.Name
        ∧ d = { dep with Annotations := dep.Annotations.delete managedAnno }
        ∧ managedMarker d = none := by
    intro d hd
    rw [Reconcile_terminating_eq w req chpa hget hdel] at hd
    unfold Reconcile.terminating Reconcile.dropFinalizer at hd
    rw [if_pos hfin] at hd
    dsimp only at hd
    split at hd
    · rename_i dep hdep
      split at hd
      · rename_i hown
        have hm := (owned_iff_managedMarker dep chpa.Name hname).1 hown
        have hd' : d = { dep with Annotations := dep.Annotations.delete managedAnno } := by
          split at hd <;> simpa using hd
        exact ⟨dep, hdep, hm, hd', hd' ▸ managedMarker_delete dep⟩
      · simp at hd
    · simp at hd
  refine ⟨key, fun hno d hd => ?_⟩
  obtain ⟨dep, h1, h2, _⟩ := key d hd
  exact hno dep h1 h2

/-- Scenario E of the specification, and its non-clobber twin: with the marker of
`web-hpa` on the workload the cleanup removes it; with the marker of another policy the
pass only reads the workload and then drops the finalizer. -/
theorem cleanup_non_clobber_witness :
    (∀ d, Effect.updateDeployment d
        ∉ (Reconcile
            (exampleWorld { examplePolicy 1 5 with DeletionTimestamp := some 7 }
              (.ok (exampleDeployment (some [(managedAnno, "other-hpa")]) (some 2)))
              (successReply "scalar" []))
            exampleRequest).trace)
    ∧ (Reconcile
        (exampleWorld { examplePolicy 1 5 with DeletionTimestamp := some 7 }
          (.ok (exampleDeployment (some [(managedAnno, "web-hpa")]) (some 2)))
          (successReply "scalar" []))
        exampleRequest).trace
      = [.getCustomHPA exampleRequest,
          .getDeployment { Namespace := "default", Name := "web" },
          .updateDeployment (exampleDeployment (some []) (some 2)),
          .updateCustomHPA
            { examplePolicy 1 5 with DeletionTimestamp := some 7, Finalizers := [] }] :=
  ⟨(cleanup_non_clobber
      (exampleWorld { examplePolicy 1 5 with DeletionTimestamp := some 7 }
        (.ok (exampleDeployment (some [(managedAnno, "other-hpa")]) (some 2)))
        (successReply "scalar" []))
      exampleRequest { examplePolicy 1 5 with DeletionTimestamp := some 7 } rfl rfl
      (by decide) (by decide)).2
      (by
        intro dep h
        have hdep : dep = exampleDeployment (some [(managedAnno, "other-hpa")]) (some 2) := by
          simpa [exampleWorld] using h.symm
        rw [hdep]
        decide),
    by decide⟩

/-! ### Metric query failure -/

theorem nonNilAnnotations_get (dep : Deployment) (key : String) :
    (Reconcile.nonNilAnnotations dep).Annotations.get key = dep.Annotations.get key := by
  unfold Reconcile.nonNilAnnotations
  cases h : dep.Annotations <;> simp [h, StringMap.get]

/-- The ownership write carries the marker and leaves the rest of the workload alone. -/
theorem markedDeployment_get (dep : Deployment) (name : String) :
    (markedDeployment dep name).Annotations.get managedAnno = name
    ∧ (markedDeployment dep name).Replicas = dep.Replicas
    ∧ (markedDeployment dep name).Name = dep.Name
    ∧ (markedDeployment dep name).Namespace = dep.Namespace := by
  refine ⟨?_, rfl, rfl, rfl⟩
  simp [markedDeployment, StringMap.set, StringMap.get, List.lookup]

theorem markedDeployment_eq (dep : Deployment) (name : String) :
    ({ Reconcile.nonNilAnnotations dep with
        Annotations := (Reconcile.nonNilAnnotations dep).Annotations.set managedAnno name } :
      Deployment) = markedDeployment dep name := by
  unfold markedDeployment Reconcile.nonNilAnnotations
  split <;> rfl

theorem Reconcile.query_error (w : World) (chpa : CustomHPA) (dep : Deployment)
    (tr : List Effect) (msg : String)
    (hq : QueryInstant w.ParseFloat w.httpGet chpa.Spec.PrometheusURL chpa.Spec.PromQL
      = .error msg) :
    Reconcile.query w chpa dep tr
      = { result := requeueAfter (setCondition chpa w.now .ConditionFalse "QueryFailed" msg)
          err := none
          panicked := false
          trace := tr ++ [.queryInstant chpa.Spec.PrometheusURL chpa.Spec.PromQL,
            .setCondition .ConditionFalse "QueryFailed", .event "Warning" "QueryFailed"]
          chpa := some (setCondition chpa w.now .ConditionFalse "QueryFailed" msg) } := by
  unfold Reconcile.query
  rw [hq]
  simp

/-- C8, as stated, fails: when the workload does not yet carry the policy's marker, the
pass writes the ownership annotation to the workload before it queries the metric, so a
pass whose query then fails (here: HTTP 500) has issued a workload update. -/
theorem query_failure_annotation_write_counterexample :
    QueryInstant
      (exampleWorld (examplePolicy 1 5) (.ok (exampleDeployment none (some 2)))
        (.response 500 (.error "unexpected end of JSON input"))).ParseFloat
      (exampleWorld (examplePolicy 1 5) (.ok (exampleDeployment none (some 2)))
        (.response 500 (.error "unexpected end of JSON input"))).httpGet
      (examplePolicy 1 5).Spec.PrometheusURL (examplePolicy 1 5).Spec.PromQL
      = .error "prometheus http status 500"
    ∧ (Reconcile
        (exampleWorld (examplePolicy 1 5) (.ok (exampleDeployment none (some 2)))
          (.response 500 (.error "unexpected end of JSON input")))
        exampleRequest).trace
      = [.getCustomHPA exampleRequest,
          .getDeployment { Namespace := "default", Name := "web" },
          .updateDeployment (exampleDeployment (some [(managedAnno, "web-hpa")]) (some 2)),
          .queryInstant "http://prometheus:9090" "sum(rate(http_requests_total[1m]))",
          .setCondition .ConditionFalse "QueryFailed",
          .event "Warning" "QueryFailed"] := by
  decide

/-- C8 (amended): for every valid policy with the finalizer (not being deleted) whose
target workload exists, when the metric query returns an error (and the ownership
write, if one is needed, succeeded), the pass never writes the replica count: it
issues no workload update at all when the workload already carries the policy's marker,
and otherwise exactly one, made before the query, that sets the managed annotation and
leaves the replica count as it was. The pass sets Ready=False with reason
"QueryFailed", returns no error, and requeues at the poll delay (30 s when
`pollIntervalSeconds` is absent). -/
theorem query_failure (w : World) (req : NamespacedName) (chpa : CustomHPA) (dep : Deployment)
    (msg : String)
    (hget : w.getCustomHPA req = .ok chpa) (hdel : chpa.DeletionTimestamp = none)
    (hfin : ContainsFinalizer chpa finalizerName = true)
    (hvalid : ¬ (chpa.Spec.MinReplicas < 0 ∨ chpa.Spec.MaxReplicas ≤ 0
      ∨ chpa.Spec.MinReplicas > chpa.Spec.MaxReplicas))
    (hint : ∀ s, chpa.Spec.IntervalSeconds = some s → isInt32 s)
    (hdep : w.getDeployment (Reconcile.targetKey chpa) = .ok dep)
    (hmark : dep.Annotations.get managedAnno ≠ chpa.Name →
      w.updateDeployment (markedDeployment dep chpa.Name) = none)
    (hq : QueryInstant w.ParseFloat w.httpGet chpa.Spec.PrometheusURL chpa.Spec.PromQL
      = .error msg) :
    (Reconcile w req).trace
      = [.getCustomHPA req, .getDeployment (Reconcile.targetKey chpa)]
        ++ (if dep.Annotations.get managedAnno = chpa.Name then []
            else [.updateDeployment (markedDeployment dep chpa.Name)])
        ++ [.queryInstant chpa.Spec.PrometheusURL chpa.Spec.PromQL,
            .setCondition .ConditionFalse "QueryFailed", .event "Warning" "QueryFailed"]
    ∧ (markedDeployment dep chpa.Name).Replicas = dep.Replicas
    ∧ (Reconcile w req).err = none
    ∧ (Reconcile w req).panicked = false
    ∧ (Reconcile w req).result = { Requeue := false, RequeueAfter := nextDelay chpa }
    ∧ (chpa.Spec.IntervalSeconds = none →
        (Reconcile w req).result.RequeueAfter = 30 * 1000000000)
    ∧ ∃ c, (Reconcile w req).chpa = some c
        ∧ readyCondition c.Status.Conditions
          = some ⟨"Ready", .ConditionFalse, "QueryFailed", msg, w.now, chpa.Generation⟩ := by
  have hres : requeueAfter (setCondition chpa w.now .ConditionFalse "QueryFailed" msg)
      = { Requeue := false, RequeueAfter := nextDelay chpa } := by
    rw [requeueAfter_congr (setCondition_Spec _ _ _ _ _), requeueAfter_eq_nextDelay chpa hint]
  have h30 : chpa.Spec.IntervalSeconds = none → nextDelay chpa = 30 * 1000000000 := by
    intro h; unfold nextDelay; rw [h]; rfl
  have hcond := (setCondition_spec chpa w.now .ConditionFalse "QueryFailed" msg).2.1
  rw [Reconcile_active_eq w req chpa hget hdel hfin]
  unfold Reconcile.active
  rw [if_neg hvalid]
  dsimp only
  rw [hdep]
  dsimp only
  rw [nonNilAnnotations_get, markedDeployment_eq]
  by_cases hown : dep.Annotations.get managedAnno = chpa.Name
  · rw [if_neg (by simpa using hown), Reconcile.query_error _ _ _ _ msg hq, hres]
    rw [if_pos hown]
    exact ⟨rfl, rfl, rfl, rfl, rfl, h30, _, rfl, hcond⟩
  · rw [if_pos hown, hmark hown]
    dsimp only
    rw [Reconcile.query_error _ _ _ _ msg hq, hres]
    rw [if_neg hown]
    exact ⟨rfl, rfl, rfl, rfl, rfl, h30, _, rfl, hcond⟩

/-- Scenario D of the specification: the workload already carries the marker and the
metric backend answers HTTP 500: the workload is untouched, and the pass is rescheduled
30 seconds later. -/
theorem query_failure_witness :
    (Reconcile
        (exampleWorld (examplePolicy 1 5)
          (.ok (exampleDeployment (some [(managedAnno, "web-hpa")]) (some 2)))
          (.response 500 (.error "unexpected end of JSON input")))
        exampleRequest).trace
      = [.getCustomHPA exampleRequest,
          .getDeployment { Namespace := "default", Name := "web" },
          .queryInstant "http://prometheus:9090" "sum(rate(http_requests_total[1m]))",
          .setCondition .ConditionFalse "QueryFailed",
          .event "Warning" "QueryFailed"]
    ∧ (Reconcile
        (exampleWorld (examplePolicy 1 5)
          (.ok (exampleDeployment (some [(managedAnno, "web-hpa")]) (some 2)))
          (.response 500 (.error "unexpected end of JSON input")))
        exampleRequest).result.RequeueAfter = 30 * 1000000000 :=
  have h := query_failure
    (exampleWorld (examplePolicy 1 5)
      (.ok (exampleDeployment (some [(managedAnno, "web-hpa")]) (some 2)))
      (.response 500 (.error "unexpected end of JSON input")))
    exampleRequest (examplePolicy 1 5)
    (exampleDeployment (some [(managedAnno, "web-hpa")]) (some 2))
    "prometheus http status 500" rfl rfl (by decide) (by decide)
    (by simp [examplePolicy]) rfl (by decide) (by decide)
  ⟨h.1, h.2.2.2.2.2.1 rfl⟩

end Operator
